import Mathlib

/-!
Verification of the order-process worker application (src/examples/order_process_app.rs)
against its natural-language specification.

The application drives a workflow broker: it deploys a process, places orders
(workflow instances), publishes a payment-received message, and runs three job
workers on a four-second polling interval. The worker engine itself
(`zeebest::JobWorker::activate_and_process_jobs`) is a library collaborator whose
source is not part of this file set; where a definition models that engine it is
marked `Modelled from the spec:` in its doc comment. Everything else is a direct
shallow embedding of the example program.
-/

/-- Modelled from the spec: one activated job handed out by the broker.
The job key is the broker-assigned identifier, unique per activation; `vars`
is the structured payload (kept as its serialized form). -/
structure Job where
  key : Nat
  vars : String
deriving DecidableEq, Repr

/-- The `zeebest::JobResult` reported by a handler: complete with optional
output variables, or fail with an error message. -/
inductive JobResult
  | Complete (vars : Option String)
  | Fail (errorMessage : String)
deriving DecidableEq, Repr

/-- The `zeebest::PanicOption` policy. `FailJobOnPanic` is the policy used by
all three workers of this program. Modelled from the spec: the alternate policy
propagates the handler failure upward, terminating the poll cycle. -/
inductive PanicOption
  | FailJobOnPanic
  | PropagatePanic
deriving DecidableEq, Repr

/-- Modelled from the spec: the observable outcome of one handler invocation —
either a produced `JobResult`, or an uncaught internal failure (a panic)
carrying a diagnostic message. -/
inductive HandlerOutcome
  | ok (result : JobResult)
  | panicked (message : String)
deriving DecidableEq, Repr

/-- A report RPC issued back to the broker for one job key:
`completeJob` or `failJob`. -/
inductive Report
  | completeJob (jobKey : Nat) (vars : Option String)
  | failJob (jobKey : Nat) (errorMessage : String) (retries : Option Nat)
deriving DecidableEq, Repr

/-- The job key a report is addressed to. -/
def Report.jobKey : Report → Nat
  | .completeJob k _ => k
  | .failJob k _ _ => k

/-- Modelled from the spec: the per-job failure boundary of the worker engine.
A produced `Complete` becomes a `completeJob` report, a produced `Fail` becomes
a `failJob` report, and a panic is decided by the policy: `FailJobOnPanic`
converts it into a `failJob` report with the diagnostic message, the alternate
policy propagates it, aborting the cycle. -/
def reportFor (policy : PanicOption) (outcome : HandlerOutcome) (k : Nat) :
    Except String Report :=
  match outcome with
  | .ok (.Complete v) => .ok (.completeJob k v)
  | .ok (.Fail m) => .ok (.failJob k m none)
  | .panicked m =>
    match policy with
    | .FailJobOnPanic => .ok (.failJob k m none)
    | .PropagatePanic => .error m

/-- The observable effects of one `activate_and_process_jobs` cycle:
the job keys on which the handler was invoked (in order, one entry per
invocation) and the report RPCs issued. -/
structure CycleResult where
  invoked : List Nat
  reports : List Report
deriving DecidableEq, Repr

/-- Modelled from the spec: `zeebest::JobWorker::activate_and_process_jobs`
after the activation RPC returned the batch `activated`. Each activated job is
dispatched to the handler exactly once, each handler outcome passes the panic
boundary `reportFor`, and one report is issued per job. Under the propagating
policy a panic aborts the cycle with the error. -/
def activate_and_process_jobs (policy : PanicOption)
    (handler : Job → HandlerOutcome) : List Job → Except String CycleResult
  | [] => .ok ⟨[], []⟩
  | j :: rest =>
    match reportFor policy (handler j) j.key with
    | .error m => .error m
    | .ok r =>
      match activate_and_process_jobs policy handler rest with
      | .error m => .error m
      | .ok cr => .ok ⟨j.key :: cr.invoked, r :: cr.reports⟩

/-- The report produced for one handler outcome under `FailJobOnPanic`
(the total specialization of `reportFor`: a panic is mapped to `failJob`). -/
def reportNoPanic (outcome : HandlerOutcome) (k : Nat) : Report :=
  match outcome with
  | .ok (.Complete v) => .completeJob k v
  | .ok (.Fail m) => .failJob k m none
  | .panicked m => .failJob k m none

theorem activate_and_process_jobs_failJobOnPanic_eq
    (handler : Job → HandlerOutcome) (jobs : List Job) :
    activate_and_process_jobs .FailJobOnPanic handler jobs =
      .ok ⟨jobs.map Job.key, jobs.map (fun j => reportNoPanic (handler j) j.key)⟩ := by
  induction jobs with
  | nil => rfl
  | cons j rest ih =>
    cases hout : handler j with
    | ok r =>
      cases r <;>
        simp [activate_and_process_jobs, reportFor, reportNoPanic, hout, ih]
    | panicked m =>
      simp [activate_and_process_jobs, reportFor, reportNoPanic, hout, ih]

/-- The `std::time::Duration` values used by the program (nanoseconds below one
second are kept separately, as in the source type). -/
structure Duration where
  secs : Nat
  nanos : Nat
deriving DecidableEq, Repr

/-- `Duration::from_secs`. -/
def Duration.from_secs (n : Nat) : Duration := ⟨n, 0⟩

/-- `Duration::as_secs`: the whole-seconds count of the duration. -/
def Duration.as_secs (d : Duration) : Nat := d.secs

/-- The configuration handed to `zeebest::JobWorker::new` by this program:
worker name, job type, the timeout argument (the number passed as third
argument), the maximum number of jobs to activate per poll, and the panic
policy. -/
structure JobWorkerConfig where
  workerName : String
  jobType : String
  timeoutArg : Nat
  maxJobsToActivate : Nat
  panicOption : PanicOption
deriving DecidableEq, Repr

/-- One `activateJobs` request as sent to the broker:
`activateJobs(jobType, maxCount, leaseMillis, workerName)`. -/
structure ActivateJobsRequest where
  jobType : String
  maxCount : Nat
  leaseMillis : Nat
  workerName : String
deriving DecidableEq, Repr

/-- Modelled from the spec: the activate request a `JobWorker` issues on each
poll — job type, requested count = the configured max-jobs, lease duration =
the configured activation timeout (forwarded as the `leaseMillis` argument of
`activateJobs`), worker identity. The `JobWorker` internals are not part of
this file set; this forwarding is the spec's §4.1 step 1 and §6 signature. -/
def JobWorkerConfig.activationRequest (c : JobWorkerConfig) : ActivateJobsRequest :=
  ⟨c.jobType, c.maxJobsToActivate, c.timeoutArg, c.workerName⟩

/-- The `initiate-payment` worker as constructed by the program (source lines
121–129): timeout argument `Duration::from_secs(3).as_secs()`, max jobs 1,
`FailJobOnPanic`. -/
def initiate_payment_job : JobWorkerConfig :=
  ⟨"rusty-worker", "initiate-payment", (Duration.from_secs 3).as_secs, 1,
    .FailJobOnPanic⟩

/-- The `ship-without-insurance` worker as constructed by the program (source
lines 131–139). -/
def ship_without_insurance_job : JobWorkerConfig :=
  ⟨"rusty-worker", "ship-without-insurance", (Duration.from_secs 3).as_secs, 1,
    .FailJobOnPanic⟩

/-- The `ship-with-insurance` worker as constructed by the program (source
lines 141–149). -/
def ship_with_insurance_job : JobWorkerConfig :=
  ⟨"rusty-worker", "ship-with-insurance", (Duration.from_secs 3).as_secs, 1,
    .FailJobOnPanic⟩

/-- The modulus of Rust's 64-bit `usize` (the `RelaxedCounter` counter type). -/
def usizeSize : Nat := 2 ^ 64

/-- The value returned by the `i`-th `AtomicCounter::inc` on the shared
`RelaxedCounter` started at 0 (invocations indexed in the linearization order
of their atomic fetch-add): the counter wraps at the `usize` modulus. -/
def relaxedCounterValue (i : Nat) : Nat := i % usizeSize

/-- Rust's `as i32` cast from `usize`: truncate to the low 32 bits and
reinterpret in two's complement. -/
def i32_of_usize (n : Nat) : Int :=
  if n % 2 ^ 32 < 2 ^ 31 then ((n % 2 ^ 32 : Nat) : Int)
  else ((n % 2 ^ 32 : Nat) : Int) - 2 ^ 32

/-- The `orderId` value embedded by the `i`-th invocation of the
initiate-payment handler: `order_id_counter.inc() as i32`. -/
def orderIdOf (i : Nat) : Int := i32_of_usize (relaxedCounterValue i)

/-- `serde_json::to_string(&Order { order_id })`: the `Order` struct renames its
field to `orderId`, and an `i32` has a unique decimal JSON rendering. -/
def orderJson (order_id : Int) : String :=
  "\x7b\"orderId\":" ++ toString order_id ++ "\x7d"

/-- The `JobResult` produced by the `i`-th invocation of the initiate-payment
handler (source lines 108–119): complete, with the serialized `Order` as the
output variables. -/
def initial_payment_result (i : Nat) : JobResult :=
  .Complete (some (orderJson (orderIdOf i)))

/-- An `f32` value carried by its IEEE-754 bit pattern; the program only moves
such values between its CLI and the serialized message payload, so the bits are
never interpreted here. -/
structure F32 where
  bits : Nat
deriving DecidableEq, Repr

/-- A symbolic JSON value: enough structure to state which fields a serialized
payload contains without modelling decimal float rendering. -/
inductive JVal
  | jnum (x : F32)
  | jstr (s : String)
  | jobj (fields : List (String × JVal))

/-- The `Payment` struct of the program: one `f32` field serialized under the
name `orderValue` (serde rename). -/
structure Payment where
  order_value : F32
deriving DecidableEq, Repr

/-- `serde_json` serialization of `Payment`: an object with the single
`orderValue` field. -/
def Payment.serialize (p : Payment) : JVal :=
  .jobj [("orderValue", .jnum p.order_value)]

/-- A `zeebest::PublishMessage` under construction: name, correlation key,
time-to-live in milliseconds, message id, and optional serialized variables. -/
structure PublishMessage where
  name : String
  correlationKey : String
  timeToLive : Nat
  messageId : String
  vars : Option JVal

/-- `PublishMessage::new(name, correlation_key, ttl, message_id)`: no variables
attached yet. -/
def PublishMessage.new (name correlationKey : String) (ttl : Nat)
    (messageId : String) : PublishMessage :=
  ⟨name, correlationKey, ttl, messageId, none⟩

/-- `PublishMessage::variables`: attach a serialized payload. -/
def PublishMessage.variables (p : PublishMessage) (v : JVal) : PublishMessage :=
  { p with vars := some v }

/-- The workflow version selector of `zeebest`. -/
inductive WorkflowVersion
  | Latest
  | Version (v : Int)
deriving DecidableEq, Repr

/-- One broker RPC issued by the top-level operations of the program. -/
inductive BrokerCall
  | deployWorkflow (name : String)
  | createWorkflowInstance (bpmnProcessId : String) (version : WorkflowVersion)
  | publishMessage (msg : PublishMessage)

/-- The `NotifyPaymentReceived` arm of the program (source lines 90–104): build
`PublishMessage::new("payment-received", order_id.to_string(), 10000, "msgid")`,
attach the serialized `Payment { order_value: cost }`, and publish it. The list
collects every broker call the arm issues. -/
def notify_payment_received (order_id : Int) (cost : F32) : List BrokerCall :=
  [.publishMessage
    ((PublishMessage.new "payment-received" (toString order_id) 10000 "msgid").variables
      (Payment.serialize ⟨cost⟩))]

/-- The subcommand selected on the command line (the `Opt` enum). -/
inductive OptCmd
  | deployWorkflow
  | placeOrder (count : Int)
  | notifyPaymentReceived (order_id : Int) (cost : F32)
  | processJobs
deriving Repr

/-- Whether `Client::new("127.0.0.1:26500")` succeeded at startup. -/
inductive ClientInit
  | ok
  | connectionFailed
deriving DecidableEq, Repr

/-- How far `main` gets: either it panics during startup — with the diagnostic
carried by `.expect(..)` and the list of broker calls issued up to that point —
or the client is constructed and `main` dispatches on the subcommand. -/
inductive MainResult
  | panickedAtStartup (diag : String) (callsIssued : List BrokerCall)
  | dispatched (opt : OptCmd)

/-- The startup of `main` (source line 63): `Client::new` is the first
statement, run before the subcommand match; on failure `.expect` panics with
`"Could not connect to broker."`, and no broker RPC has been issued. -/
def mainStartup : ClientInit → MainResult ⊕ Unit
  | .connectionFailed => .inl (.panickedAtStartup "Could not connect to broker." [])
  | .ok => .inr ()

/-- `main` up to subcommand dispatch: startup first, then — only if the client
was constructed — the match on the selected subcommand. -/
def mainRun (init : ClientInit) (opt : OptCmd) : MainResult :=
  match mainStartup init with
  | .inl r => r
  | .inr () => .dispatched opt

/-- The broker call issued by each iteration of the `PlaceOrder` loop:
`create_workflow_instance` for BPMN process `"order-process"` at the latest
version (source lines 79–87). -/
def create_workflow_instance_call : BrokerCall :=
  .createWorkflowInstance "order-process" .Latest

/-- The `PlaceOrder` loop body, iterating `n` more times starting at iteration
index `i`: each iteration issues one `create_workflow_instance` call and
`.unwrap()`s the result (`ok i` tells whether the `i`-th RPC succeeded), so a
failed call panics — the `Bool` of the result — and no further call is made. -/
def placeOrderGo (ok : Nat → Bool) (i : Nat) : Nat → List BrokerCall × Bool
  | 0 => ([], false)
  | n + 1 =>
    if ok i then
      let rest := placeOrderGo ok (i + 1) n
      (create_workflow_instance_call :: rest.1, rest.2)
    else ([create_workflow_instance_call], true)

/-- The `PlaceOrder` arm (source lines 77–89): `for _ in 0..count` with an
`i32` count — an empty range when `count ≤ 0`. Returns the broker calls issued
(in order) and whether the arm panicked on a failed call. -/
def place_order (count : Int) (ok : Nat → Bool) : List BrokerCall × Bool :=
  placeOrderGo ok 0 count.toNat

/-- The three job workers registered by the `ProcessJobs` arm. -/
inductive WorkerId
  | initiatePayment
  | shipWithInsurance
  | shipWithoutInsurance
deriving DecidableEq, Repr

/-- The future combinators appearing in the `ProcessJobs` loop body: a call to
one worker's `activate_and_process_jobs`, or `futures::future::join3` of three
sub-futures. -/
inductive Fut
  | call (w : WorkerId)
  | join3 (a b c : Fut)
deriving DecidableEq, Repr

/-- The loop body built on every tick (source lines 153–158): the three freshly
created worker futures combined with `join3(f1, f2, f3)`. -/
def tick_body : Fut :=
  .join3 (.call .initiatePayment) (.call .shipWithInsurance)
    (.call .shipWithoutInsurance)

/-- Execution phase of one worker-call future: not yet polled, in flight, or
resolved. -/
inductive Phase
  | pending
  | running
  | finished
deriving DecidableEq, Repr

/-- A future annotated with the phase of each of its worker calls. -/
inductive FutExec
  | call (w : WorkerId) (ph : Phase)
  | join3 (a b c : FutExec)
deriving DecidableEq, Repr

/-- The initial execution state of a future: every call still pending. -/
def Fut.start : Fut → FutExec
  | .call w => .call w .pending
  | .join3 a b c => .join3 a.start b.start c.start

/-- Whether a future has resolved: a call once finished; `join3` once all three
children have (its `Output` is ready exactly then). -/
def FutExec.isDone : FutExec → Bool
  | .call _ ph => ph = .finished
  | .join3 a b c => a.isDone && b.isDone && c.isDone

/-- The execution state in which all three worker calls of a tick have
finished. -/
def allDoneExec : FutExec :=
  .join3 (.call .initiatePayment .finished) (.call .shipWithInsurance .finished)
    (.call .shipWithoutInsurance .finished)

/-- Observable scheduling events of one tick: a worker's
`activate_and_process_jobs` call starts (its future is first polled) or
finishes (its future resolves). -/
inductive Ev
  | start (w : WorkerId)
  | finish (w : WorkerId)
deriving DecidableEq, Repr

/-- Interleaving small-step semantics of the tick future. A pending call may
start and a running call may finish at any time; `join3` polls its three
children, so any child may step regardless of the others' phases — this is the
concurrency of `futures::future::join3`, in contrast to sequential `await`s,
which could not step a later future before an earlier one resolved. -/
inductive FutStep : FutExec → Ev → FutExec → Prop
  | callStart (w : WorkerId) :
      FutStep (.call w .pending) (.start w) (.call w .running)
  | callFinish (w : WorkerId) :
      FutStep (.call w .running) (.finish w) (.call w .finished)
  | joinA {a a' : FutExec} {e : Ev} (b c : FutExec) :
      FutStep a e a' → FutStep (.join3 a b c) e (.join3 a' b c)
  | joinB {b b' : FutExec} {e : Ev} (a c : FutExec) :
      FutStep b e b' → FutStep (.join3 a b c) e (.join3 a b' c)
  | joinC {c c' : FutExec} {e : Ev} (a b : FutExec) :
      FutStep c e c' → FutStep (.join3 a b c) e (.join3 a b c')

/-- A finite execution trace of a future: a sequence of interleaved steps. -/
inductive FutTrace : FutExec → List Ev → FutExec → Prop
  | nil (s : FutExec) : FutTrace s [] s
  | cons {s s' s'' : FutExec} {e : Ev} {tr : List Ev} :
      FutStep s e s' → FutTrace s' tr s'' → FutTrace s (e :: tr) s''

/-- Number of occurrences of an event in a trace. -/
def countEv (e : Ev) : List Ev → Nat
  | [] => 0
  | e' :: tr => (if e' = e then 1 else 0) + countEv e tr

/-- Number of call leaves for worker `w` (of any phase). -/
def leafCount : FutExec → WorkerId → Nat
  | .call w' _, w => if w' = w then 1 else 0
  | .join3 a b c, w => leafCount a w + leafCount b w + leafCount c w

/-- Number of call leaves for worker `w` that have started (left `pending`). -/
def startedCount : FutExec → WorkerId → Nat
  | .call w' ph, w => if w' = w then (if ph = .pending then 0 else 1) else 0
  | .join3 a b c, w => startedCount a w + startedCount b w + startedCount c w

/-- Number of call leaves for worker `w` that have finished. -/
def finishedCount : FutExec → WorkerId → Nat
  | .call w' ph, w => if w' = w then (if ph = .finished then 1 else 0) else 0
  | .join3 a b c, w => finishedCount a w + finishedCount b w + finishedCount c w

/-- Number of call leaves for worker `w` currently in flight. -/
def runningCount : FutExec → WorkerId → Nat
  | .call w' ph, w => if w' = w then (if ph = .running then 1 else 0) else 0
  | .join3 a b c, w => runningCount a w + runningCount b w + runningCount c w

/-- `runtime::time::Interval::next` for the four-second interval of the
`ProcessJobs` loop: the interval stream yields a tick indefinitely — it never
returns `none`. -/
def intervalNext (tickIdx : Nat) : Option Unit :=
  let _ := tickIdx
  some ()

/-- Observable events of the `ProcessJobs` loop: iteration `n`'s body begins
(the interval fired), or one scheduling step of iteration `n`'s `join3`. -/
inductive LoopEv
  | tickStart (n : Nat)
  | work (n : Nat) (e : Ev)
deriving DecidableEq, Repr

/-- The iteration index an event belongs to. -/
def tagOf : LoopEv → Nat
  | .tickStart n => n
  | .work n _ => n

/-- State of the `ProcessJobs` loop: how many iterations have begun, and the
execution state of the current iteration's `join3` body (all-finished when the
loop is between iterations). -/
structure LoopState where
  ticks : Nat
  cur : FutExec
deriving DecidableEq, Repr

/-- The loop before its first iteration: nothing in flight. -/
def loop_init : LoopState := ⟨0, allDoneExec⟩

/-- Small-step semantics of the `ProcessJobs` loop (source lines 151–159).
The loop body is `join3(f1, f2, f3).await`, so the `while let` can only move to
the next iteration once the current body has resolved: a `tickStart` step
requires `cur.isDone` and a yielded interval tick, and installs three fresh
worker futures; a `work` step advances the current body by one interleaved
step. -/
inductive LoopStep : LoopState → LoopEv → LoopState → Prop
  | tick (n : Nat) (cur : FutExec) :
      cur.isDone = true → (intervalNext n).isSome = true →
      LoopStep ⟨n, cur⟩ (.tickStart (n + 1)) ⟨n + 1, Fut.start tick_body⟩
  | work (n : Nat) {cur cur' : FutExec} {e : Ev} :
      FutStep cur e cur' →
      LoopStep ⟨n, cur⟩ (.work n e) ⟨n, cur'⟩

/-- A finite trace of the `ProcessJobs` loop. -/
inductive LoopTrace : LoopState → List LoopEv → LoopState → Prop
  | nil (s : LoopState) : LoopTrace s [] s
  | cons {s s' s'' : LoopState} {e : LoopEv} {tr : List LoopEv} :
      LoopStep s e s' → LoopTrace s' tr s'' → LoopTrace s (e :: tr) s''

/-- The (discarded) value of one iteration's `join3(f1, f2, f3).await`: the
three workers' cycle results. -/
structure TickOutcome where
  r1 : Except String CycleResult
  r2 : Except String CycleResult
  r3 : Except String CycleResult

/-- Whether the `ProcessJobs` loop reaches iteration `n`, given the outcome of
every iteration's worker cycles. The source's `while let Some(_) =
interval.next().await` exits only when the interval stream ends, and the body
discards the awaited `join3` value, so the outcomes are dropped unused. -/
def processJobsLoopReaches (outcomes : Nat → TickOutcome) : Nat → Bool
  | 0 => true
  | n + 1 =>
    match processJobsLoopReaches outcomes n with
    | false => false
    | true =>
      match intervalNext n with
      | none => false
      | some () =>
        let _ := outcomes n
        true

theorem reportNoPanic_jobKey (outcome : HandlerOutcome) (k : Nat) :
    (reportNoPanic outcome k).jobKey = k := by
  cases outcome with
  | ok r => cases r <;> rfl
  | panicked m => rfl

theorem reports_keys_eq (handler : Job → HandlerOutcome) (jobs : List Job) :
    (jobs.map (fun j => reportNoPanic (handler j) j.key)).map Report.jobKey =
      jobs.map Job.key := by
  induction jobs with
  | nil => rfl
  | cons j rest ih => simp [reportNoPanic_jobKey, ih]

/-- Claim C1: for every batch of activated jobs of size 0..N, one call to
`activate_and_process_jobs` (with the `FailJobOnPanic` policy of this program)
returns as success and issues exactly one report RPC per activated job key —
the list of reported job keys equals the list of activated job keys, so there
are no duplicates and no omissions — the handler is invoked exactly once per
activated job, and when activation returns 0 jobs no report call is issued and
no handler is invoked. -/
theorem c1_exactly_one_report_per_activated_job :
    (∀ (handler : Job → HandlerOutcome) (activated : List Job),
      ∃ cr : CycleResult,
        activate_and_process_jobs .FailJobOnPanic handler activated = .ok cr ∧
        cr.reports.map Report.jobKey = activated.map Job.key ∧
        (∀ k : Nat, (cr.reports.map Report.jobKey).count k = (activated.map Job.key).count k) ∧
        cr.invoked = activated.map Job.key) ∧
    (∀ handler : Job → HandlerOutcome,
      activate_and_process_jobs .FailJobOnPanic handler [] = .ok ⟨[], []⟩) := by
  constructor
  · intro handler activated
    refine ⟨_, activate_and_process_jobs_failJobOnPanic_eq handler activated, ?_, ?_, rfl⟩
    · exact reports_keys_eq handler activated
    · intro k
      rw [reports_keys_eq handler activated]
  · intro handler
    rfl

/-- Claim C2: in a batch processed under `FailJobOnPanic` (the policy of all
three workers of this program), a handler invocation that panics results in a
`failJob` call for that job key and never a `completeJob` call, and the sibling
jobs of the batch are not aborted — the cycle still succeeds and still issues
one report per activated job. -/
theorem c2_panic_reports_fail_never_complete
    (handler : Job → HandlerOutcome) (activated : List Job) (j : Job) (m : String)
    (hmem : j ∈ activated) (hpanic : handler j = .panicked m)
    (hkeys : (activated.map Job.key).Nodup) :
    ∃ cr : CycleResult,
      activate_and_process_jobs .FailJobOnPanic handler activated = .ok cr ∧
      Report.failJob j.key m none ∈ cr.reports ∧
      (∀ v : Option String, Report.completeJob j.key v ∉ cr.reports) ∧
      cr.reports.length = activated.length := by
  refine ⟨_, activate_and_process_jobs_failJobOnPanic_eq handler activated, ?_, ?_, by simp⟩
  · have h : reportNoPanic (handler j) j.key = .failJob j.key m none := by
      rw [hpanic]; rfl
    exact h ▸ List.mem_map_of_mem _ hmem
  · intro v hv
    rcases List.mem_map.1 hv with ⟨j', hj', heq⟩
    have hk : j'.key = j.key := by
      have h := congrArg Report.jobKey heq
      rw [reportNoPanic_jobKey] at h
      exact h
    have hjj : j' = j := List.inj_on_of_nodup_map hkeys hj' hmem hk
    subst hjj
    rw [hpanic] at heq
    simp [reportNoPanic] at heq

/-- Concrete instance of the panic-safety claim C2: a one-job batch whose
handler panics yields one `failJob` report and no `completeJob`. -/
theorem c2_panic_reports_fail_never_complete_witness :
    ∃ cr : CycleResult,
      activate_and_process_jobs .FailJobOnPanic (fun _ => .panicked "boom")
        [⟨7, "p"⟩] = .ok cr ∧
      Report.failJob 7 "boom" none ∈ cr.reports ∧
      (∀ v : Option String, Report.completeJob 7 v ∉ cr.reports) ∧
      cr.reports.length = 1 :=
  c2_panic_reports_fail_never_complete (fun _ => .panicked "boom") [⟨7, "p"⟩]
    ⟨7, "p"⟩ "boom" (by simp) rfl (by simp)

/-- Claim C6: each of the three workers requests at most one job per
activation, but the number passed as the lease timeout is
`Duration::from_secs(3).as_secs() = 3` — the seconds count — not 3 seconds
expressed in milliseconds. The `leaseMillis` forwarded to `activateJobs` is
therefore 3, not the 3000 the specification states: the code's unit conversion
(`as_secs` where a millisecond count is needed) contradicts the intended
three-second lease. -/
theorem c6_lease_millis_eval :
    initiate_payment_job.activationRequest.maxCount = 1 ∧
    ship_with_insurance_job.activationRequest.maxCount = 1 ∧
    ship_without_insurance_job.activationRequest.maxCount = 1 ∧
    initiate_payment_job.activationRequest.leaseMillis = 3 ∧
    ship_with_insurance_job.activationRequest.leaseMillis = 3 ∧
    ship_without_insurance_job.activationRequest.leaseMillis = 3 ∧
    (3 : Nat) ≠ 3000 := by
  refine ⟨rfl, rfl, rfl, rfl, rfl, rfl, by decide⟩

/-- Counterexample to claim C7 as stated: the invocations with linearization
indices 0 and 2^32 obtain distinct counter values, yet — because the `usize`
counter value is cast with `as i32`, which truncates to 32 bits — their
`orderId` fields and hence their `Complete` results coincide. -/
theorem c7_orderid_collision_counterexample :
    relaxedCounterValue 0 ≠ relaxedCounterValue (2 ^ 32) ∧
    orderIdOf 0 = orderIdOf (2 ^ 32) ∧
    initial_payment_result 0 = initial_payment_result (2 ^ 32) := by
  refine ⟨by decide, ?_, ?_⟩
  · rfl
  · rfl

/-- Claim C7 (amended): the atomic increment gives any two distinct invocations
among the first 2^64 distinct counter values, and the `orderId` fields of
distinct invocations are pairwise distinct as long as fewer than 2^32
invocations occur (beyond that the `as i32` cast wraps). -/
theorem c7_distinct_counter_values_amended (i j : Nat)
    (hi : i < usizeSize) (hj : j < usizeSize) (hne : i ≠ j) :
    relaxedCounterValue i ≠ relaxedCounterValue j ∧
    (i < 2 ^ 32 → j < 2 ^ 32 → orderIdOf i ≠ orderIdOf j) := by
  constructor
  · unfold relaxedCounterValue
    rw [Nat.mod_eq_of_lt hi, Nat.mod_eq_of_lt hj]
    exact hne
  · intro hi32 hj32 heq
    have hi64 : i % usizeSize = i := Nat.mod_eq_of_lt hi
    have hj64 : j % usizeSize = j := Nat.mod_eq_of_lt hj
    unfold orderIdOf relaxedCounterValue i32_of_usize at heq
    rw [hi64, hj64, Nat.mod_eq_of_lt hi32, Nat.mod_eq_of_lt hj32] at heq
    split_ifs at heq <;> omega

/-- Concrete instance of the amended C7: invocations 1 and 2 give distinct
counter values and distinct `orderId`s. -/
theorem c7_distinct_counter_values_amended_witness :
    relaxedCounterValue 1 ≠ relaxedCounterValue 2 ∧
    (1 < 2 ^ 32 → 2 < 2 ^ 32 → orderIdOf 1 ≠ orderIdOf 2) :=
  c7_distinct_counter_values_amended 1 2 (by decide) (by decide) (by decide)

/-- Claim C8: for every `order_id` and `cost`, the notify-payment-received
operation issues exactly one broker call, a `publishMessage` with name
`"payment-received"`, correlation key the decimal rendering of `order_id`,
time-to-live 10000 ms, message id `"msgid"`, and as variables the serialized
`Payment` carrying `cost` in the `orderValue` field. -/
theorem c8_notify_publishes_exactly_one_message (order_id : Int) (cost : F32) :
    notify_payment_received order_id cost =
      [.publishMessage
        ⟨"payment-received", toString order_id, 10000, "msgid",
          some (.jobj [("orderValue", .jnum cost)])⟩] ∧
    (notify_payment_received order_id cost).length = 1 :=
  ⟨rfl, rfl⟩

/-- Claim C9: if the broker client cannot be constructed at startup, `main`
panics immediately with the diagnostic `"Could not connect to broker."`, having
issued no broker call, and never dispatches on the selected subcommand —
whichever subcommand was selected. -/
theorem c9_connection_failure_fatal (opt : OptCmd) :
    mainRun .connectionFailed opt =
      .panickedAtStartup "Could not connect to broker." [] :=
  rfl

theorem startedCount_step {s s' : FutExec} {e : Ev} (h : FutStep s e s')
    (w : WorkerId) :
    startedCount s' w = startedCount s w + (if e = .start w then 1 else 0) := by
  induction h with
  | callStart w' => by_cases hw : w' = w <;> simp [startedCount, hw]
  | callFinish w' => by_cases hw : w' = w <;> simp [startedCount, hw]
  | joinA b c hstep ih => simp only [startedCount, ih]; omega
  | joinB a c hstep ih => simp only [startedCount, ih]; omega
  | joinC a b hstep ih => simp only [startedCount, ih]; omega

theorem finishedCount_step {s s' : FutExec} {e : Ev} (h : FutStep s e s')
    (w : WorkerId) :
    finishedCount s' w = finishedCount s w + (if e = .finish w then 1 else 0) := by
  induction h with
  | callStart w' => by_cases hw : w' = w <;> simp [finishedCount, hw]
  | callFinish w' => by_cases hw : w' = w <;> simp [finishedCount, hw]
  | joinA b c hstep ih => simp only [finishedCount, ih]; omega
  | joinB a c hstep ih => simp only [finishedCount, ih]; omega
  | joinC a b hstep ih => simp only [finishedCount, ih]; omega

theorem leafCount_step {s s' : FutExec} {e : Ev} (h : FutStep s e s')
    (w : WorkerId) : leafCount s' w = leafCount s w := by
  induction h with
  | callStart w' => rfl
  | callFinish w' => rfl
  | joinA b c hstep ih => simp only [leafCount, ih]
  | joinB a c hstep ih => simp only [leafCount, ih]
  | joinC a b hstep ih => simp only [leafCount, ih]

theorem startedCount_trace {s s' : FutExec} {tr : List Ev} (h : FutTrace s tr s')
    (w : WorkerId) :
    startedCount s' w = startedCount s w + countEv (.start w) tr := by
  induction h with
  | nil s => simp [countEv]
  | cons hstep htr ih =>
    rw [ih, startedCount_step hstep w]
    simp only [countEv]
    omega

theorem finishedCount_trace {s s' : FutExec} {tr : List Ev} (h : FutTrace s tr s')
    (w : WorkerId) :
    finishedCount s' w = finishedCount s w + countEv (.finish w) tr := by
  induction h with
  | nil s => simp [countEv]
  | cons hstep htr ih =>
    rw [ih, finishedCount_step hstep w]
    simp only [countEv]
    omega

theorem leafCount_trace {s s' : FutExec} {tr : List Ev} (h : FutTrace s tr s')
    (w : WorkerId) : leafCount s' w = leafCount s w := by
  induction h with
  | nil s => rfl
  | cons hstep htr ih => rw [ih, leafCount_step hstep w]

theorem startedCount_of_isDone :
    ∀ {s : FutExec}, s.isDone = true → ∀ w : WorkerId,
      startedCount s w = leafCount s w := by
  intro s
  induction s with
  | call w' ph =>
    intro h w
    cases ph <;> simp_all [FutExec.isDone, startedCount, leafCount]
  | join3 a b c iha ihb ihc =>
    intro h w
    simp only [FutExec.isDone, Bool.and_eq_true] at h
    simp only [startedCount, leafCount, iha h.1.1 w, ihb h.1.2 w, ihc h.2 w]

theorem finishedCount_of_isDone :
    ∀ {s : FutExec}, s.isDone = true → ∀ w : WorkerId,
      finishedCount s w = leafCount s w := by
  intro s
  induction s with
  | call w' ph =>
    intro h w
    cases ph <;> simp_all [FutExec.isDone, finishedCount, leafCount]
  | join3 a b c iha ihb ihc =>
    intro h w
    simp only [FutExec.isDone, Bool.and_eq_true] at h
    simp only [finishedCount, leafCount, iha h.1.1 w, ihb h.1.2 w, ihc h.2 w]

theorem startedCount_start (f : Fut) (w : WorkerId) :
    startedCount (Fut.start f) w = 0 := by
  induction f with
  | call w' => simp [Fut.start, startedCount]
  | join3 a b c iha ihb ihc => simp [Fut.start, startedCount, iha, ihb, ihc]

theorem finishedCount_start (f : Fut) (w : WorkerId) :
    finishedCount (Fut.start f) w = 0 := by
  induction f with
  | call w' => simp [Fut.start, finishedCount]
  | join3 a b c iha ihb ihc => simp [Fut.start, finishedCount, iha, ihb, ihc]

theorem leafCount_tick_body (w : WorkerId) :
    leafCount (Fut.start tick_body) w = 1 := by
  cases w <;> rfl

/-- Claim C3: on every tick of the process-jobs loop, the body polls exactly
one `activate_and_process_jobs` call per registered worker — in every complete
execution of the tick's `join3` future, each of the three workers' calls starts
exactly once and finishes exactly once — and the three calls run concurrently:
the interleaving in which all three calls start before any of them finishes is
an admissible execution of `join3`, which no sequential `await` chain admits. -/
theorem c3_tick_calls_each_worker_once_concurrently :
    (∀ (tr : List Ev) (s' : FutExec), FutTrace (Fut.start tick_body) tr s' →
      s'.isDone = true → ∀ w : WorkerId,
        countEv (.start w) tr = 1 ∧ countEv (.finish w) tr = 1) ∧
    FutTrace (Fut.start tick_body)
      [.start .initiatePayment, .start .shipWithInsurance,
       .start .shipWithoutInsurance, .finish .initiatePayment,
       .finish .shipWithInsurance, .finish .shipWithoutInsurance]
      allDoneExec ∧
    allDoneExec.isDone = true := by
  refine ⟨?_, ?_, rfl⟩
  · intro tr s' htr hdone w
    have h1 := startedCount_trace htr w
    have h2 := finishedCount_trace htr w
    have hl := leafCount_trace htr w
    have hi1 := startedCount_start tick_body w
    have hi2 := finishedCount_start tick_body w
    have hleaf := leafCount_tick_body w
    have hs := startedCount_of_isDone hdone w
    have hf := finishedCount_of_isDone hdone w
    omega
  · exact FutTrace.cons (.joinA _ _ (.callStart _))
      (FutTrace.cons (.joinB _ _ (.callStart _))
        (FutTrace.cons (.joinC _ _ (.callStart _))
          (FutTrace.cons (.joinA _ _ (.callFinish _))
            (FutTrace.cons (.joinB _ _ (.callFinish _))
              (FutTrace.cons (.joinC _ _ (.callFinish _)) (FutTrace.nil _))))))

/-- Concrete instance of claim C3: in the fully concurrent complete execution
of one tick, the initiate-payment worker's call starts once and finishes
once. -/
theorem c3_tick_calls_witness :
    countEv (.start .initiatePayment)
      [.start .initiatePayment, .start .shipWithInsurance,
       .start .shipWithoutInsurance, .finish .initiatePayment,
       .finish .shipWithInsurance, .finish .shipWithoutInsurance] = 1 ∧
    countEv (.finish .initiatePayment)
      [.start .initiatePayment, .start .shipWithInsurance,
       .start .shipWithoutInsurance, .finish .initiatePayment,
       .finish .shipWithInsurance, .finish .shipWithoutInsurance] = 1 :=
  c3_tick_calls_each_worker_once_concurrently.1 _ _
    c3_tick_calls_each_worker_once_concurrently.2.1
    c3_tick_calls_each_worker_once_concurrently.2.2 .initiatePayment

theorem loopStep_ticks_le {s s' : LoopState} {e : LoopEv} (h : LoopStep s e s') :
    s.ticks ≤ tagOf e ∧ tagOf e ≤ s'.ticks ∧ s.ticks ≤ s'.ticks := by
  cases h with
  | tick n cur hd hi => simp [tagOf]
  | work n hstep => simp [tagOf]

theorem loopTrace_tags_mono {s s' : LoopState} {tr : List LoopEv}
    (h : LoopTrace s tr s') :
    (tr.map tagOf).Pairwise (· ≤ ·) ∧
      (∀ ev ∈ tr, s.ticks ≤ tagOf ev) ∧ s.ticks ≤ s'.ticks := by
  induction h with
  | nil s => simp
  | cons hstep htr ih =>
    obtain ⟨hpw, hlb, hle⟩ := ih
    obtain ⟨h1, h2, h3⟩ := loopStep_ticks_le hstep
    refine ⟨?_, ?_, le_trans h3 hle⟩
    · simp only [List.map_cons, List.pairwise_cons]
      refine ⟨fun t ht => ?_, hpw⟩
      rcases List.mem_map.1 ht with ⟨ev, hev, rfl⟩
      exact le_trans h2 (hlb ev hev)
    · intro ev hev
      rcases List.mem_cons.1 hev with rfl | hev'
      · exact h1
      · exact le_trans h3 (hlb ev hev')

theorem loopTrace_leafCount :
    ∀ {s s' : LoopState} {tr : List LoopEv}, LoopTrace s tr s' →
      (∀ w : WorkerId, leafCount s.cur w = 1) →
      ∀ w : WorkerId, leafCount s'.cur w = 1 := by
  intro s s' tr h
  induction h with
  | nil s => exact fun hinv => hinv
  | cons hstep htr ih =>
    intro hinv
    apply ih
    cases hstep with
    | tick n cur hd hi => exact leafCount_tick_body
    | work n hstep' =>
      intro w
      rw [leafCount_step hstep']
      exact hinv w

theorem runningCount_le_leafCount (s : FutExec) (w : WorkerId) :
    runningCount s w ≤ leafCount s w := by
  induction s with
  | call w' ph =>
    by_cases hw : w' = w <;> cases ph <;> simp [runningCount, leafCount, hw]
  | join3 a b c iha ihb ihc =>
    simp only [runningCount, leafCount]
    omega

/-- Claim C4: the scheduler loop awaits the completion of the whole tick body
(`join3(f1, f2, f3).await`) before scheduling the next tick. In every trace of
the loop the iteration tags of the events are monotone — events of tick `i` all
precede events of tick `j > i`, ticks never overlap — in every reachable state
at most one of each worker's poll cycles is in flight, and a new tick can start
only from a state whose current body has fully resolved. -/
theorem c4_no_overlapping_ticks :
    (∀ (tr : List LoopEv) (s' : LoopState), LoopTrace loop_init tr s' →
      (tr.map tagOf).Pairwise (· ≤ ·) ∧
      ∀ w : WorkerId, runningCount s'.cur w ≤ 1) ∧
    (∀ (s s' : LoopState) (n : Nat), LoopStep s (.tickStart n) s' →
      s.cur.isDone = true) := by
  constructor
  · intro tr s' htr
    refine ⟨(loopTrace_tags_mono htr).1, fun w => ?_⟩
    have hleaf := loopTrace_leafCount htr (fun w => leafCount_tick_body w) w
    calc runningCount s'.cur w ≤ leafCount s'.cur w :=
          runningCount_le_leafCount _ _
      _ = 1 := hleaf
  · intro s s' n h
    cases h with
    | tick n cur hd hi => exact hd

/-- Concrete instance of claim C4: after the loop's first tick fires, the tags
of the emitted events are monotone and no worker has more than one cycle in
flight; and the tick could fire only because the idle body counts as
resolved. -/
theorem c4_no_overlapping_ticks_witness :
    (([LoopEv.tickStart 1].map tagOf).Pairwise (· ≤ ·) ∧
      ∀ w : WorkerId, runningCount (Fut.start tick_body) w ≤ 1) ∧
    allDoneExec.isDone = true :=
  ⟨c4_no_overlapping_ticks.1 [.tickStart 1] ⟨1, Fut.start tick_body⟩
      (LoopTrace.cons (LoopStep.tick 0 allDoneExec rfl rfl) (LoopTrace.nil _)),
   c4_no_overlapping_ticks.2 loop_init ⟨1, Fut.start tick_body⟩ 1
      (LoopStep.tick 0 allDoneExec rfl rfl)⟩

/-- Claim C5: the process-jobs loop has no natural termination condition — the
interval stream never ends, so the `while let` condition never fails and the
loop reaches every iteration — and this holds for every assignment of per-tick
cycle outcomes: an activation or report RPC failure or a failed job in one
cycle does not terminate the loop, whose body discards the awaited results. -/
theorem c5_loop_never_terminates (outcomes : Nat → TickOutcome) (n : Nat) :
    processJobsLoopReaches outcomes n = true ∧
    (intervalNext n).isSome = true := by
  refine ⟨?_, rfl⟩
  induction n with
  | zero => rfl
  | succ n ih => simp [processJobsLoopReaches, ih, intervalNext]

theorem placeOrderGo_all_ok (ok : Nat → Bool) :
    ∀ (n i : Nat), (∀ m, m < n → ok (i + m) = true) →
      placeOrderGo ok i n = (List.replicate n create_workflow_instance_call, false) := by
  intro n
  induction n with
  | zero => intro i h; rfl
  | succ n ih =>
    intro i h
    have h0 : ok i = true := by have := h 0 (Nat.succ_pos n); simpa using this
    have hrest := ih (i + 1) (fun m hm => by
      have := h (m + 1) (Nat.succ_lt_succ hm)
      simpa [Nat.add_assoc, Nat.add_comm 1 m] using this)
    simp [placeOrderGo, h0, hrest, List.replicate]

theorem placeOrderGo_first_fail (ok : Nat → Bool) :
    ∀ (k i n : Nat), k < n → (∀ m, m < k → ok (i + m) = true) →
      ok (i + k) = false →
      placeOrderGo ok i n =
        (List.replicate (k + 1) create_workflow_instance_call, true) := by
  intro k
  induction k with
  | zero =>
    intro i n hk hpre hfail
    cases n with
    | zero => omega
    | succ n =>
      simp only [Nat.add_zero] at hfail
      simp [placeOrderGo, hfail, List.replicate]
  | succ k ih =>
    intro i n hk hpre hfail
    cases n with
    | zero => omega
    | succ n =>
      have h0 : ok i = true := by have := hpre 0 (Nat.succ_pos k); simpa using this
      have hrest := ih (i + 1) n (by omega)
        (fun m hm => by
          have := hpre (m + 1) (Nat.succ_lt_succ hm)
          simpa [Nat.add_assoc, Nat.add_comm 1 m] using this)
        (by
          have : i + 1 + k = i + (k + 1) := by omega
          rw [this]; exact hfail)
      simp [placeOrderGo, h0, hrest, List.replicate]

/-- Claim C10: the place-order operation issues exactly `count`
`create_workflow_instance` calls (zero when `count ≤ 0`), sequentially, each
for BPMN process `"order-process"` at the latest workflow version; if one call
fails, the program panics after that call and no further instance is
created. -/
theorem c10_place_order_calls (count : Int) (ok : Nat → Bool) :
    (count ≤ 0 → place_order count ok = ([], false)) ∧
    ((∀ k, k < count.toNat → ok k = true) →
      place_order count ok =
        (List.replicate count.toNat create_workflow_instance_call, false)) ∧
    (∀ k, k < count.toNat → (∀ m, m < k → ok m = true) → ok k = false →
      place_order count ok =
        (List.replicate (k + 1) create_workflow_instance_call, true)) := by
  refine ⟨?_, ?_, ?_⟩
  · intro h
    have h0 : count.toNat = 0 := Int.toNat_eq_zero.2 h
    simp [place_order, h0, placeOrderGo]
  · intro h
    exact placeOrderGo_all_ok ok count.toNat 0 (fun m hm => by simpa using h m hm)
  · intro k hk hpre hfail
    exact placeOrderGo_first_fail ok k 0 count.toNat hk
      (fun m hm => by simpa using hpre m hm) (by simpa using hfail)

/-- Concrete instances of claim C10: with three orders requested and the second
RPC failing, exactly two calls are issued and the program panics; with a
negative count, no call is issued. -/
theorem c10_place_order_calls_witness :
    place_order 3 (fun k => decide (k ≠ 1)) =
      (List.replicate 2 create_workflow_instance_call, true) ∧
    place_order (-2) (fun _ => true) = ([], false) :=
  ⟨(c10_place_order_calls 3 (fun k => decide (k ≠ 1))).2.2 1 (by decide)
      (by decide) (by decide),
   (c10_place_order_calls (-2) (fun _ => true)).1 (by decide)⟩
